import Mathlib

set_option maxHeartbeats 1000000
set_option maxRecDepth 4000

/-!
Shallow embedding of the SecureChat end-to-end encryption engine: the
frontend crypto service (`CryptoService` class), the crypto context
provider (`CryptoProvider`), and the chat-page send path (`handleSend`).

Byte strings are `List Nat` with entries below 256.  The base64 transport
encoding (`arrayBufferToBase64` / `base64ToArrayBuffer`, a bijection the
service applies at every boundary) is abstracted away, so an envelope
field stands for the byte string its base64 text decodes to, and a
plaintext stands for its `TextEncoder` bytes.

The Web Crypto primitives (`window.crypto.subtle`) are not repository
code; they are modelled by executable ideal functional models that
satisfy the primitives' documented contracts:

* ECDH on P-256: a private key is a nonzero scalar `d`, the exported
  public key stands for the point `d·G`, and `deriveBits` returns a
  shared secret that is a symmetric function of the two scalars.
* AES-GCM: a stream-cipher XOR keystream plus a polynomial one-time MAC
  over the prime field `ZMod 251`.  GCM's GHASH is exactly such a
  polynomial MAC (over `GF(2^128)`); a prime field below 256 keeps every
  tag byte a genuine byte while preserving the field algebra that makes
  single-bit tampering detectable.  The combined primitive output is
  `ciphertext ++ tag` with a 16-byte tag, as WebCrypto produces for
  `tagLength: 128`, and the model builds in the hash subkey being
  nonzero (the standard idealisation of GCM's `H = E_K(0)` being
  nonzero).
-/

namespace SecureChat

/-- Numeric value of an IV byte string (base-256), used to feed the IV into
the modelled keystream and tag. -/
def ivVal : List Nat → Nat
  | [] => 0
  | b :: bs => b + 256 * ivVal bs

/-- Keystream byte `i` of the modelled AES-CTR stream for `(key, iv)`. -/
def ksByte (key : Nat) (iv : List Nat) (i : Nat) : Nat :=
  (key + 3 * ivVal iv + 7 * i) % 256

/-- XOR a byte string with the keystream starting at stream index `i`: the
confidentiality half of the modelled AES-GCM.  XOR makes it an involution,
so the same function both masks plaintext and unmasks ciphertext. -/
def xorStream (key : Nat) (iv : List Nat) : Nat → List Nat → List Nat
  | _, [] => []
  | i, b :: bs => (b ^^^ ksByte key iv i) :: xorStream key iv (i + 1) bs

/-- Nonzero MAC point derived from the key: the model's analogue of GCM's
hash subkey `H`, with `H ≠ 0` built in. -/
def hashPoint (key : Nat) : ZMod 251 := ((key % 250) + 1 : Nat)

/-- One Horner step of the polynomial MAC. -/
def macStep (h : ZMod 251) (acc : ZMod 251) (c : Nat) : ZMod 251 :=
  acc * h + (c : ZMod 251)

/-- Polynomial one-time MAC of a byte string: the GHASH analogue. -/
def polyMac (h : ZMod 251) (cs : List Nat) : ZMod 251 :=
  cs.foldl (macStep h) 0

/-- The 16-byte authentication tag of the modelled AES-GCM: head byte is the
polynomial MAC of the ciphertext offset by a `(key, iv)`-bound pad (GCM's
`GHASH ⊕ E_K(J₀)`), the remaining 15 bytes are key/iv-derived filler. -/
def gcmTag (key : Nat) (iv : List Nat) (cs : List Nat) : List Nat :=
  (polyMac (hashPoint key) cs + ((key + ivVal iv : Nat) : ZMod 251)).val ::
    (List.range 15).map (fun j => (key + ivVal iv + j) % 251)

/-- Modelled `crypto.subtle.encrypt` for AES-GCM: the combined output
`ciphertext ++ tag`, with the 16-byte tag trailing. -/
def subtleEncrypt (key : Nat) (iv : List Nat) (plaintext : List Nat) : List Nat :=
  xorStream key iv 0 plaintext ++ gcmTag key iv (xorStream key iv 0 plaintext)

/-- Modelled `crypto.subtle.decrypt` for AES-GCM with `tagLength: 128`: the
last 16 bytes of the combined input are the tag; verify it against the
recomputed tag of the leading ciphertext, then unmask. -/
def subtleDecrypt (key : Nat) (iv : List Nat) (combined : List Nat) : Option (List Nat) :=
  if combined.drop (combined.length - 16)
      = gcmTag key iv (combined.take (combined.length - 16))
  then some (xorStream key iv 0 (combined.take (combined.length - 16)))
  else none

/-- Modelled `crypto.getRandomValues(new Uint8Array(12))`: twelve bytes drawn
from the entropy input `rand`; the platform always fills exactly the
requested twelve bytes. -/
def genIV (rand : Nat) : List Nat :=
  (List.range 12).map (fun i => rand / 256 ^ i % 256)

/-- Modelled ECDH `deriveBits`: the shared secret of a private scalar and a
peer public point.  With the public key of scalar `d` standing for `d·G`,
the secret of `(a, b·G)` is the scalar product. -/
def ecdhBits (priv pub : Nat) : Nat := priv * pub

/-- Public key corresponding to private scalar `d` (the point `d·G`). -/
def pubOf (d : Nat) : Nat := d

/-- Modelled `crypto.subtle.importKey('raw', sharedSecret, AES-GCM, ...)`:
the raw 256-bit secret becomes the AES key handle unchanged (the source
applies no KDF). -/
def importAesKey (secret : Nat) : Nat := secret

/-- Errors thrown by the frontend crypto code:
`notInitialized` is `Error('Crypto not initialized')`,
`typeError` a WebCrypto/JS TypeError (e.g. `exportKey` on a null key),
`decryptFailed` is `Error('Failed to decrypt message. Message may be
corrupted or key mismatch.')`, and `peerKeyUnavailable` is
`Error('User has not set up encryption yet')` from the provider's
`getUserPublicKey`. -/
inductive CryptoError where
  | notInitialized
  | typeError
  | decryptFailed
  | peerKeyUnavailable
  deriving DecidableEq, Repr

/-- Wire envelope produced by `encryptMessage`: the three base64 fields,
each standing for its decoded bytes. -/
structure Envelope where
  ciphertext : List Nat
  iv : List Nat
  authTag : List Nat
  deriving DecidableEq, Repr

/-- The in-memory `this.keyPair` object.  After `initialize()` both halves
are set; after `loadPrivateKey` the source sets `publicKey: null`, hence
the public half is an `Option`. -/
structure KeyPairJS where
  privateKey : Nat
  publicKey : Option Nat
  deriving DecidableEq, Repr

/-- Association-list lookup modelling `Map.get` / `localStorage.getItem`. -/
def lookupKey : List (Nat × Nat) → Nat → Option Nat
  | [], _ => none
  | (k, v) :: t, u => if k = u then some v else lookupKey t u

/-- Association-list insert modelling `Map.set` / `localStorage.setItem`
(overwrites any prior entry for the key). -/
def insertKey : List (Nat × Nat) → Nat → Nat → List (Nat × Nat)
  | [], u, v => [(u, v)]
  | (k, w) :: t, u, v => if k = u then (u, v) :: t else (k, w) :: insertKey t u v

/-- Mutable state of the `CryptoService` singleton: `this.keyPair` and the
`this.sharedKeys` map of userId to derived AES key handle. -/
structure ServiceState where
  keyPair : Option KeyPairJS
  sharedKeys : List (Nat × Nat)
  deriving DecidableEq, Repr

/-- State of `localStorage` restricted to the `privateKey_${userId}` slots:
userId mapped to the stored (pkcs8-exported, base64) private key. -/
abbrev Storage := List (Nat × Nat)

namespace CryptoService

/-- Service state right after a successful `initialize()` with fresh private
scalar `d`: `this.keyPair` holds both halves; `initialize()` does not touch
`this.sharedKeys`, so the cache is whatever it was (here: the state as
created at login, with an empty cache). -/
def initService (d : Nat) : ServiceState :=
  { keyPair := some { privateKey := d, publicKey := some (pubOf d) }, sharedKeys := [] }

/-- Effect of `initialize()` on an arbitrary prior state: replaces
`this.keyPair` with a fresh pair, leaving the shared-key cache alone. -/
def reinit (st : ServiceState) (d : Nat) : ServiceState :=
  { st with keyPair := some { privateKey := d, publicKey := some (pubOf d) } }

/-- Source `exportPublicKey` (part_000 lines 244-260): throws
`'Crypto not initialized. Call initialize() first.'` when `this.keyPair` is
null; otherwise `exportKey('raw', this.keyPair.publicKey)` — which rejects
with a TypeError when the public half is null, the rejection being
rethrown by the catch block. -/
def exportPublicKey (st : ServiceState) : Except CryptoError Nat :=
  match st.keyPair with
  | none => .error .notInitialized
  | some kp =>
    match kp.publicKey with
    | none => .error .typeError
    | some pk => .ok pk

/-- Source `deriveSharedKey` (part_000 lines 291-335): requires
`this.keyPair`; returns the cached handle for `userId` when present;
otherwise imports the peer public key, derives 256 shared bits by ECDH
with `this.keyPair.privateKey`, imports them as an AES-GCM key, caches the
handle under `userId`, and returns it together with the updated state. -/
def deriveSharedKey (st : ServiceState) (otherPub : Nat) (userId : Nat) :
    Except CryptoError (Nat × ServiceState) :=
  match st.keyPair with
  | none => .error .notInitialized
  | some kp =>
    match lookupKey st.sharedKeys userId with
    | some k => .ok (k, st)
    | none =>
      let k := importAesKey (ecdhBits kp.privateKey otherPub)
      .ok (k, { st with sharedKeys := insertKey st.sharedKeys userId k })

/-- Source `encryptMessage` (part_000 lines 341-375): random 12-byte IV,
AES-GCM encrypt, then `slice(0, -16)` / `slice(-16)` split of the combined
output into ciphertext and authTag. -/
def encryptMessage (plaintext : List Nat) (sharedKey : Nat) (rand : Nat) : Envelope :=
  { ciphertext := (subtleEncrypt sharedKey (genIV rand) plaintext).take
      ((subtleEncrypt sharedKey (genIV rand) plaintext).length - 16)
    iv := genIV rand
    authTag := (subtleEncrypt sharedKey (genIV rand) plaintext).drop
      ((subtleEncrypt sharedKey (genIV rand) plaintext).length - 16) }

/-- Source `decryptMessage` (part_000 lines 381-415): concatenates
ciphertext and authTag back into the combined buffer, calls the AES-GCM
decrypt primitive with the envelope's IV — with no validation of any field
length — and maps a primitive rejection to the single
`'Failed to decrypt message...'` error. -/
def decryptMessage (encryptedData : Envelope) (sharedKey : Nat) :
    Except CryptoError (List Nat) :=
  match subtleDecrypt sharedKey encryptedData.iv
      (encryptedData.ciphertext ++ encryptedData.authTag) with
  | some p => .ok p
  | none => .error .decryptFailed

/-- Source `encryptForUser` (part_000 lines 421-424): derive (or fetch
cached) shared key, then encrypt. -/
def encryptForUser (st : ServiceState) (plaintext : List Nat) (otherPub userId rand : Nat) :
    Except CryptoError (Envelope × ServiceState) :=
  match deriveSharedKey st otherPub userId with
  | .error e => .error e
  | .ok (k, st1) => .ok (encryptMessage plaintext k rand, st1)

/-- Source `decryptFromUser` (part_000 lines 430-433): derive (or fetch
cached) shared key, then decrypt. -/
def decryptFromUser (st : ServiceState) (encryptedData : Envelope) (otherPub userId : Nat) :
    Except CryptoError (List Nat × ServiceState) :=
  match deriveSharedKey st otherPub userId with
  | .error e => .error e
  | .ok (k, st1) =>
    match decryptMessage encryptedData k with
    | .error e => .error e
    | .ok p => .ok (p, st1)

/-- Source `clearKeys` (part_000 lines 438-442): `this.sharedKeys.clear()`
and `this.keyPair = null`. -/
def clearKeys (_st : ServiceState) : ServiceState :=
  { keyPair := none, sharedKeys := [] }

/-- Source `savePrivateKey` (part_000 lines 479-491).  The whole body sits
in a `try` whose `catch` only logs: a storage/export failure (modelled by
`ioFail`) is swallowed and the call completes normally with storage
unchanged; so does the TypeError raised when `this.keyPair` is null. -/
def savePrivateKey (st : ServiceState) (storage : Storage) (userId : Nat) (ioFail : Bool) :
    Except CryptoError (Unit × Storage) :=
  if ioFail then .ok ((), storage)
  else
    match st.keyPair with
    | none => .ok ((), storage)
    | some kp => .ok ((), insertKey storage userId kp.privateKey)

/-- Source `loadPrivateKey` (part_000 lines 496-524): returns `false` when
no key is stored for `userId`; otherwise imports the pkcs8 private key and
sets `this.keyPair = { privateKey, publicKey: null }` — the public half is
left null.  Any thrown error (modelled by `ioFail`) is caught and mapped
to `false` with the state unchanged. -/
def loadPrivateKey (st : ServiceState) (storage : Storage) (userId : Nat) (ioFail : Bool) :
    Except CryptoError (Bool × ServiceState) :=
  if ioFail then .ok (false, st)
  else
    match lookupKey storage userId with
    | none => .ok (false, st)
    | some d =>
      .ok (true, { st with keyPair := some { privateKey := d, publicKey := none } })

end CryptoService

/-- Provider-level state of `CryptoProvider` (part_000 lines 12-18): the
`isInitialized` React state flag. -/
structure ProviderState where
  isInitialized : Bool
  deriving DecidableEq, Repr

/-- The fixed placeholder string the provider's `decryptMessage` returns on
failure, as its `TextEncoder` bytes. -/
def placeholderText : List Nat :=
  "[Decryption failed: Message may be corrupted]".data.map Char.toNat

/-- Marker string stored in the `text` field of an encrypted payload. -/
def encryptedMarker : List Nat := "[Encrypted]".data.map Char.toNat

namespace CryptoProvider

/-- Source `getUserPublicKey` (part_000 lines 92-100): GET the peer's
published public key from the directory; a failed lookup is rethrown as
`'User has not set up encryption yet'`.  The directory collaborator is the
function `dir`. -/
def getUserPublicKey (dir : Nat → Option Nat) (userId : Nat) : Except CryptoError Nat :=
  match dir userId with
  | some pk => .ok pk
  | none => .error .peerKeyUnavailable

/-- Source provider `encryptMessage` (part_000 lines 105-122): throws
`'Crypto not initialized'` when the flag is down; otherwise fetches the
recipient's public key and calls `cryptoService.encryptForUser`; the catch
block logs and rethrows, so every inner failure propagates. -/
def encryptMessage (pst : ProviderState) (st : ServiceState) (dir : Nat → Option Nat)
    (plaintext : List Nat) (recipientId rand : Nat) :
    Except CryptoError (Envelope × ServiceState) :=
  if pst.isInitialized = false then .error .notInitialized
  else
    match getUserPublicKey dir recipientId with
    | .error e => .error e
    | .ok pk => CryptoService.encryptForUser st plaintext pk recipientId rand

/-- Source provider `decryptMessage` (part_000 lines 127-145): throws
`'Crypto not initialized'` when the flag is down; otherwise fetches the
sender's public key and calls `cryptoService.decryptFromUser`, and the
catch block converts ANY inner failure into the fixed placeholder string
instead of rethrowing.  Service-state mutations made before the failing
step (the shared-key cache insert) survive, as they do in the source. -/
def decryptMessage (pst : ProviderState) (st : ServiceState) (dir : Nat → Option Nat)
    (encryptedData : Envelope) (senderId : Nat) :
    Except CryptoError (List Nat × ServiceState) :=
  if pst.isInitialized = false then .error .notInitialized
  else
    match getUserPublicKey dir senderId with
    | .error _ => .ok (placeholderText, st)
    | .ok pk =>
      match CryptoService.deriveSharedKey st pk senderId with
      | .error _ => .ok (placeholderText, st)
      | .ok (k, st1) =>
        match CryptoService.decryptMessage encryptedData k with
        | .error _ => .ok (placeholderText, st1)
        | .ok p => .ok (p, st1)

end CryptoProvider

/-- Message payload assembled by `handleSend` (ChatPage.jsx lines 205-255),
as handed to `sendMessage` and the socket. -/
structure MessagePayload where
  conversationId : Nat
  text : List Nat
  encryptedData : Option (List Nat)
  iv : Option (List Nat)
  authTag : Option (List Nat)
  isEncrypted : Bool
  senderId : Nat
  deriving DecidableEq, Repr

/-- ASCII whitespace test modelling `String.prototype.trim`'s character
class on the code points that occur in UTF-8 text bytes. -/
def isSpaceByte (b : Nat) : Bool := b == 32 || b == 9 || b == 10 || b == 13

/-- Modelled `messageText.trim()` on the byte representation. -/
def trimBytes (bs : List Nat) : List Nat :=
  ((bs.dropWhile isSpaceByte).reverse.dropWhile isSpaceByte).reverse

namespace ChatPage

/-- Source `handleSend` (ChatPage.jsx lines 205-283).  Inputs factor the
React context it reads: `activeId`/`isConnected`/`activeGroup` guard the
early return, `canEncrypt` is `isCryptoInitialized && activeContact &&
activeContact.userId`, and `encResult` is the outcome of the awaited
`encryptMessage` call (only consulted when `canEncrypt`).  Returns the
payload passed to `sendMessage`, or `none` when the guard bails out. -/
def handleSend (messageText : List Nat) (activeId : Option Nat) (isConnected : Bool)
    (activeGroup : Bool) (canEncrypt : Bool)
    (encResult : Except CryptoError Envelope) (userId : Nat) : Option MessagePayload :=
  match activeId with
  | none => none
  | some aid =>
    if trimBytes messageText = [] ∨ isConnected = false ∨ activeGroup = true then none
    else if canEncrypt then
      match encResult with
      | .ok env =>
        some { conversationId := aid, text := encryptedMarker,
               encryptedData := some env.ciphertext, iv := some env.iv,
               authTag := some env.authTag, isEncrypted := true, senderId := userId }
      | .error _ =>
        some { conversationId := aid, text := trimBytes messageText,
               encryptedData := none, iv := none, authTag := none,
               isEncrypted := false, senderId := userId }
    else
      some { conversationId := aid, text := trimBytes messageText,
             encryptedData := none, iv := none, authTag := none,
             isEncrypted := false, senderId := userId }

end ChatPage

/-!
Interleaving model for the concurrent encrypt-for-peer path (claim C6).

One `encryptForPeer` call for a fixed peer executes, in order, with an
await (hence a possible interleaving point) between each step:

* `start → fetched`: the awaited directory GET inside the provider's
  `encryptMessage` (part_000 line 111, via `getUserPublicKey`); counts one
  public-key fetch.
* `fetched → done/missed`: the synchronous `this.sharedKeys.has(userId)`
  check at the top of `deriveSharedKey` (line 297); `done` on a hit
  (cached handle returned), `missed` on a miss.
* `missed → done`: the awaited `importPublicKey` / `deriveBits` /
  `importKey` sequence (lines 303-324) followed by the cache store (line
  327); counts one derivation.

The source has no in-flight bookkeeping between the cache check and the
cache store, so the scheduler is free to run every task's check before any
task's store. -/

/-- Program counter of one in-flight `encryptForPeer` call. -/
inductive TaskPC where
  | start
  | fetched
  | missed
  | done
  deriving DecidableEq, Repr

/-- Shared state of the interleaving model: the cache slot for the one
peer, the directory fetch count, the derivation count, and each task's
program counter. -/
structure FlightState where
  cache : Option Nat
  fetchCount : Nat
  deriveCount : Nat
  pcs : List TaskPC
  deriving DecidableEq, Repr

/-- One scheduler step: run the next atomic section of task `i`.  `k` is
the key value a derivation stores (the same for every task, derivation
being deterministic). -/
def stepTask (k : Nat) (s : FlightState) (i : Nat) : FlightState :=
  match s.pcs.getD i .done with
  | .start => { s with fetchCount := s.fetchCount + 1, pcs := s.pcs.set i .fetched }
  | .fetched =>
    if s.cache.isSome then { s with pcs := s.pcs.set i .done }
    else { s with pcs := s.pcs.set i .missed }
  | .missed =>
    { s with deriveCount := s.deriveCount + 1, cache := some k, pcs := s.pcs.set i .done }
  | .done => s

/-- Run a schedule (a list of task indices) from a state. -/
def runSched (k : Nat) (sched : List Nat) (s : FlightState) : FlightState :=
  sched.foldl (stepTask k) s

/-- Initial state for `n` concurrent calls against an empty cache. -/
def flightStart (n : Nat) : FlightState :=
  { cache := none, fetchCount := 0, deriveCount := 0, pcs := List.replicate n .start }

/-- Flip bit `j` of the byte at position `i` of a byte string. -/
def flipBit (bs : List Nat) (i j : Nat) : List Nat :=
  bs.set i ((bs.getD i 0) ^^^ (1 <<< j))

/-! ### Basic facts about the modelled primitives -/

lemma xorStream_length (key : Nat) (iv : List Nat) :
    ∀ (i : Nat) (ps : List Nat), (xorStream key iv i ps).length = ps.length
  | _, [] => rfl
  | i, _ :: bs => by simp [xorStream, xorStream_length key iv (i + 1) bs]

lemma xorStream_invol (key : Nat) (iv : List Nat) :
    ∀ (i : Nat) (ps : List Nat), xorStream key iv i (xorStream key iv i ps) = ps
  | _, [] => rfl
  | i, b :: bs => by
      simp [xorStream, Nat.xor_cancel_right, xorStream_invol key iv (i + 1) bs]

lemma xorStream_mem_lt (key : Nat) (iv : List Nat) :
    ∀ (i : Nat) (ps : List Nat), (∀ b ∈ ps, b < 256) →
      ∀ c ∈ xorStream key iv i ps, c < 256
  | _, [], _, c, hc => absurd hc (by simp [xorStream])
  | i, b :: bs, hp, c, hc => by
      simp only [xorStream, List.mem_cons] at hc
      rcases hc with rfl | hc
      · have h1 : b < 2 ^ 8 := hp b (List.mem_cons_self ..)
        have h2 : ksByte key iv i < 2 ^ 8 := Nat.mod_lt _ (by norm_num)
        have h3 := Nat.xor_lt_two_pow h1 h2
        norm_num at h3
        exact h3
      · exact xorStream_mem_lt key iv (i + 1) bs
          (fun x hx => hp x (List.mem_cons_of_mem _ hx)) c hc

lemma gcmTag_length (key : Nat) (iv cs : List Nat) : (gcmTag key iv cs).length = 16 := by
  simp [gcmTag]

lemma take_combined (cs tg : List Nat) (h : tg.length = 16) :
    (cs ++ tg).take ((cs ++ tg).length - 16) = cs := by
  have hl : (cs ++ tg).length - 16 = cs.length := by simp [h]
  rw [hl]
  exact List.take_left cs tg

lemma drop_combined (cs tg : List Nat) (h : tg.length = 16) :
    (cs ++ tg).drop ((cs ++ tg).length - 16) = tg := by
  have hl : (cs ++ tg).length - 16 = cs.length := by simp [h]
  rw [hl]
  exact List.drop_left cs tg

lemma encrypt_ciphertext (p : List Nat) (key rand : Nat) :
    (CryptoService.encryptMessage p key rand).ciphertext = xorStream key (genIV rand) 0 p :=
  take_combined _ _ (gcmTag_length _ _ _)

lemma encrypt_iv (p : List Nat) (key rand : Nat) :
    (CryptoService.encryptMessage p key rand).iv = genIV rand := rfl

lemma encrypt_authTag (p : List Nat) (key rand : Nat) :
    (CryptoService.encryptMessage p key rand).authTag
      = gcmTag key (genIV rand) (xorStream key (genIV rand) 0 p) :=
  drop_combined _ _ (gcmTag_length _ _ _)

/-- The AEAD codec round trip at a single shared key. -/
lemma decrypt_encrypt (p : List Nat) (key rand : Nat) :
    CryptoService.decryptMessage (CryptoService.encryptMessage p key rand) key = .ok p := by
  unfold CryptoService.decryptMessage
  rw [encrypt_ciphertext, encrypt_iv, encrypt_authTag]
  unfold subtleDecrypt
  rw [take_combined _ _ (gcmTag_length _ _ _), drop_combined _ _ (gcmTag_length _ _ _)]
  simp [xorStream_invol]

/-! ### The polynomial MAC detects single-byte changes -/

instance fact_prime_251 : Fact (Nat.Prime 251) := ⟨by norm_num⟩

lemma hashPoint_ne_zero (key : Nat) : hashPoint key ≠ 0 := by
  unfold hashPoint
  intro h
  rw [ZMod.natCast_zmod_eq_zero_iff_dvd] at h
  have h1 : 0 < key % 250 + 1 := Nat.succ_pos _
  have h2 := Nat.le_of_dvd h1 h
  have h3 : key % 250 < 250 := Nat.mod_lt _ (by norm_num)
  omega

lemma foldl_macStep_ne (h : ZMod 251) (hne : h ≠ 0) :
    ∀ (cs : List Nat) (x y : ZMod 251), x ≠ y →
      cs.foldl (macStep h) x ≠ cs.foldl (macStep h) y
  | [], _, _, hxy => by simpa using hxy
  | c :: t, x, y, hxy => by
      simp only [List.foldl_cons]
      refine foldl_macStep_ne h hne t _ _ ?_
      intro heq
      unfold macStep at heq
      exact hxy (mul_right_cancel₀ hne (add_right_cancel heq))

lemma foldl_macStep_set_ne (h : ZMod 251) (hne : h ≠ 0) :
    ∀ (cs : List Nat) (i v : Nat) (x : ZMod 251), i < cs.length →
      ((v : ZMod 251) ≠ ((cs.getD i 0 : Nat) : ZMod 251)) →
      (cs.set i v).foldl (macStep h) x ≠ cs.foldl (macStep h) x
  | [], i, v, x, hi, _ => absurd hi (by simp)
  | c :: t, 0, v, x, _, hv => by
      simp only [List.getD_cons_zero] at hv
      simp only [List.set_cons_zero, List.foldl_cons]
      refine foldl_macStep_ne h hne t _ _ ?_
      intro heq
      unfold macStep at heq
      exact hv (add_left_cancel heq)
  | c :: t, i + 1, v, x, hi, hv => by
      simp only [List.getD_cons_succ] at hv
      simp only [List.set_cons_succ, List.foldl_cons]
      exact foldl_macStep_set_ne h hne t i v _ (by simpa using hi) hv

lemma gcmTag_set_ne (key : Nat) (iv cs : List Nat) (i v : Nat)
    (hi : i < cs.length)
    (hv : ((v : ZMod 251) ≠ ((cs.getD i 0 : Nat) : ZMod 251))) :
    gcmTag key iv (cs.set i v) ≠ gcmTag key iv cs := by
  unfold gcmTag
  intro heq
  injection heq with hhead _
  have h1 := ZMod.val_injective 251 hhead
  have h2 := add_right_cancel h1
  exact foldl_macStep_set_ne (hashPoint key) (hashPoint_ne_zero key) cs i v 0 hi hv h2

lemma flip_changes_byte_mod :
    ∀ b < 256, ∀ j < 8, (b ^^^ (1 <<< j)) % 251 ≠ b % 251 := by decide

lemma flip_changes_residue (b j : Nat) (hb : b < 256) (hj : j < 8) :
    (((b ^^^ (1 <<< j)) : Nat) : ZMod 251) ≠ ((b : Nat) : ZMod 251) := by
  intro h
  rw [ZMod.natCast_eq_natCast_iff'] at h
  exact flip_changes_byte_mod b hb j hj h

lemma getD_mem_of_lt {cs : List Nat} {i : Nat} (hi : i < cs.length) : cs.getD i 0 ∈ cs := by
  rw [List.getD_eq_getElem?_getD, List.getElem?_eq_getElem hi]
  exact List.getElem_mem hi

lemma gcmTag_flipBit_ne (key : Nat) (iv cs : List Nat) (i j : Nat)
    (hi : i < cs.length) (hj : j < 8) (hbytes : ∀ b ∈ cs, b < 256) :
    gcmTag key iv (flipBit cs i j) ≠ gcmTag key iv cs := by
  apply gcmTag_set_ne key iv cs i _ hi
  exact flip_changes_residue (cs.getD i 0) j (hbytes _ (getD_mem_of_lt hi)) hj

lemma getD_set_self : ∀ (bs : List Nat) (i v : Nat), i < bs.length →
    (bs.set i v).getD i 0 = v
  | [], _, _, hi => absurd hi (by simp)
  | _ :: _, 0, _, _ => rfl
  | _ :: t, i + 1, v, hi => by
      simp only [List.set_cons_succ, List.getD_cons_succ]
      exact getD_set_self t i v (by simpa using hi)

lemma flipBit_ne (bs : List Nat) (i j : Nat) (hi : i < bs.length) :
    flipBit bs i j ≠ bs := by
  intro h
  have h1 : (flipBit bs i j).getD i 0 = bs.getD i 0 := by rw [h]
  unfold flipBit at h1
  rw [getD_set_self bs i _ hi] at h1
  have h3 : bs.getD i 0 ^^^ (1 <<< j) = bs.getD i 0 ^^^ 0 := by simpa using h1
  have h4 := Nat.xor_right_injective h3
  have h5 : 1 <<< j = 2 ^ j := Nat.one_shiftLeft j
  have h6 := Nat.two_pow_pos j
  omega

/-- Helper for C5 and C7: a `deriveSharedKey` call on a state whose cached
entry for `uid` (if any) agrees with the pure derivation returns exactly
the pure derivation. -/
lemma derive_consistent (s : ServiceState) (a pubB uid : Nat) (po : Option Nat)
    (hk : s.keyPair = some { privateKey := a, publicKey := po })
    (hc : lookupKey s.sharedKeys uid = none ∨
          lookupKey s.sharedKeys uid = some (importAesKey (ecdhBits a pubB))) :
    ∃ st', CryptoService.deriveSharedKey s pubB uid
      = .ok (importAesKey (ecdhBits a pubB), st') := by
  unfold CryptoService.deriveSharedKey
  rw [hk]
  rcases hc with h | h <;> rw [h] <;> exact ⟨_, rfl⟩

/-! ### Claim theorems -/

/-- C1: for every plaintext and every pair of valid P-256 identity key
pairs, the shared key either side derives from the other's public key is
the same, and encrypting under one then decrypting under the other
returns the plaintext. -/
theorem derive_encrypt_decrypt_round_trip (p : List Nat) (a b uidA uidB rand : Nat)
    (_ha : 0 < a) (_hb : 0 < b) :
    ∃ kAB kBA stA stB,
      CryptoService.deriveSharedKey (CryptoService.initService a) (pubOf b) uidB
        = .ok (kAB, stA) ∧
      CryptoService.deriveSharedKey (CryptoService.initService b) (pubOf a) uidA
        = .ok (kBA, stB) ∧
      kAB = kBA ∧
      CryptoService.decryptMessage (CryptoService.encryptMessage p kAB rand) kBA
        = .ok p := by
  have hk : importAesKey (ecdhBits a (pubOf b)) = importAesKey (ecdhBits b (pubOf a)) := by
    simp [importAesKey, ecdhBits, pubOf, Nat.mul_comm]
  refine ⟨importAesKey (ecdhBits a (pubOf b)), importAesKey (ecdhBits b (pubOf a)),
    _, _, rfl, rfl, hk, ?_⟩
  rw [← hk]
  exact decrypt_encrypt p _ rand

/-- C1 witness at concrete keys and plaintext. -/
theorem derive_encrypt_decrypt_round_trip_witness :
    0 < 3 ∧ 0 < 5 ∧
    (∃ kAB kBA stA stB,
      CryptoService.deriveSharedKey (CryptoService.initService 3) (pubOf 5) 2
        = .ok (kAB, stA) ∧
      CryptoService.deriveSharedKey (CryptoService.initService 5) (pubOf 3) 1
        = .ok (kBA, stB) ∧
      kAB = kBA ∧
      CryptoService.decryptMessage
          (CryptoService.encryptMessage [104, 105] kAB 9) kBA
        = .ok [104, 105]) :=
  ⟨by decide, by decide,
   derive_encrypt_decrypt_round_trip [104, 105] 3 5 1 2 9 (by decide) (by decide)⟩

/-- C2: flipping any single bit of the `ciphertext` or `authTag` field of
an envelope produced by `encryptMessage` under key `key` makes
`decryptMessage` under the same key fail with the decryption-failure
error, so it never returns a wrong plaintext. -/
theorem tamper_detection (key rand : Nat) (p : List Nat) (hp : ∀ b ∈ p, b < 256)
    (i j : Nat) (hj : j < 8) :
    (i < (CryptoService.encryptMessage p key rand).ciphertext.length →
      CryptoService.decryptMessage
        { ciphertext := flipBit (CryptoService.encryptMessage p key rand).ciphertext i j,
          iv := (CryptoService.encryptMessage p key rand).iv,
          authTag := (CryptoService.encryptMessage p key rand).authTag } key
        = .error .decryptFailed) ∧
    (i < (CryptoService.encryptMessage p key rand).authTag.length →
      CryptoService.decryptMessage
        { ciphertext := (CryptoService.encryptMessage p key rand).ciphertext,
          iv := (CryptoService.encryptMessage p key rand).iv,
          authTag := flipBit (CryptoService.encryptMessage p key rand).authTag i j } key
        = .error .decryptFailed) := by
  have hC : ∀ b ∈ xorStream key (genIV rand) 0 p, b < 256 :=
    xorStream_mem_lt key (genIV rand) 0 p hp
  rw [encrypt_ciphertext, encrypt_iv, encrypt_authTag]
  constructor
  · intro hi
    have hne := gcmTag_flipBit_ne key (genIV rand)
      (xorStream key (genIV rand) 0 p) i j hi hj hC
    unfold CryptoService.decryptMessage subtleDecrypt
    rw [take_combined _ _ (gcmTag_length _ _ _), drop_combined _ _ (gcmTag_length _ _ _)]
    rw [if_neg (fun h => hne h.symm)]
  · intro hi
    have hne := flipBit_ne
      (gcmTag key (genIV rand) (xorStream key (genIV rand) 0 p)) i j hi
    have hflen : (flipBit (gcmTag key (genIV rand) (xorStream key (genIV rand) 0 p)) i j).length
        = 16 := by
      simp [flipBit, gcmTag_length]
    unfold CryptoService.decryptMessage subtleDecrypt
    rw [take_combined _ _ hflen, drop_combined _ _ hflen]
    rw [if_neg hne]

/-- C2 witness: a concrete bit flip in each field of a concrete envelope is
rejected. -/
theorem tamper_detection_witness :
    (∀ b ∈ [104, 105], b < 256) ∧
    CryptoService.decryptMessage
      { ciphertext := flipBit (CryptoService.encryptMessage [104, 105] 3 9).ciphertext 0 0,
        iv := (CryptoService.encryptMessage [104, 105] 3 9).iv,
        authTag := (CryptoService.encryptMessage [104, 105] 3 9).authTag } 3
      = .error .decryptFailed ∧
    CryptoService.decryptMessage
      { ciphertext := (CryptoService.encryptMessage [104, 105] 3 9).ciphertext,
        iv := (CryptoService.encryptMessage [104, 105] 3 9).iv,
        authTag := flipBit (CryptoService.encryptMessage [104, 105] 3 9).authTag 0 0 } 3
      = .error .decryptFailed :=
  ⟨by decide,
   (tamper_detection 3 9 [104, 105] (by decide) 0 0 (by decide)).1 (by decide),
   (tamper_detection 3 9 [104, 105] (by decide) 0 0 (by decide)).2 (by decide)⟩

/-- C3, code evaluated at the failing input: save then reload for the same
owner leaves the in-memory public key half unset (`publicKey: null`), and
`exportPublicKey` after the reload fails instead of returning the bytes it
returned before persistence. -/
theorem reload_leaves_public_key_unset :
    CryptoService.exportPublicKey (CryptoService.initService 7) = .ok (pubOf 7) ∧
    CryptoService.savePrivateKey (CryptoService.initService 7) [] 42 false
      = .ok ((), [(42, 7)]) ∧
    CryptoService.loadPrivateKey (CryptoService.clearKeys (CryptoService.initService 7))
        [(42, 7)] 42 false
      = .ok (true, { keyPair := some { privateKey := 7, publicKey := none },
                     sharedKeys := [] }) ∧
    CryptoService.exportPublicKey
        { keyPair := some { privateKey := 7, publicKey := none }, sharedKeys := [] }
      = .error .typeError :=
  ⟨rfl, rfl, rfl, rfl⟩

/-- C4 counterexample: an envelope whose `iv` is only 11 bytes long is not
rejected with any malformed-envelope error; `decryptMessage` forwards it
straight to the AES-GCM decrypt primitive, which here even succeeds. -/
theorem decrypt_accepts_short_iv :
    (Envelope.mk [1, 2, 3] (List.replicate 11 0)
        (gcmTag 5 (List.replicate 11 0) [1, 2, 3])).iv.length ≠ 12 ∧
    CryptoService.decryptMessage
        (Envelope.mk [1, 2, 3] (List.replicate 11 0)
          (gcmTag 5 (List.replicate 11 0) [1, 2, 3])) 5
      = .ok (xorStream 5 (List.replicate 11 0) 0 [1, 2, 3]) := by
  constructor
  · decide
  · rfl

/-- C4 amended: `encryptMessage` always produces a 12-byte IV and a 16-byte
authTag, ciphertext and authTag recompose exactly into the primitive's
combined output, and `decryptMessage` performs no length validation at
all — every envelope, whatever its `iv` and `authTag` lengths, is handed
directly to the decrypt primitive. -/
theorem envelope_format_contract (p : List Nat) (key rand : Nat) :
    (CryptoService.encryptMessage p key rand).iv.length = 12 ∧
    (CryptoService.encryptMessage p key rand).authTag.length = 16 ∧
    (CryptoService.encryptMessage p key rand).ciphertext
        ++ (CryptoService.encryptMessage p key rand).authTag
      = subtleEncrypt key (genIV rand) p ∧
    ∀ (env : Envelope) (k : Nat),
      CryptoService.decryptMessage env k
        = match subtleDecrypt k env.iv (env.ciphertext ++ env.authTag) with
          | some q => .ok q
          | none => .error .decryptFailed := by
  refine ⟨?_, ?_, ?_, fun env k => rfl⟩
  · rw [encrypt_iv]
    simp [genIV]
  · rw [encrypt_authTag]
    exact gcmTag_length _ _ _
  · rw [encrypt_ciphertext, encrypt_authTag]
    rfl

/-- C5 counterexample: with the provider flag down, the facade-level
decrypt throws `'Crypto not initialized'` to its caller instead of
returning the placeholder string. -/
theorem facade_decrypt_uninitialized_throws :
    CryptoProvider.decryptMessage { isInitialized := false }
        { keyPair := none, sharedKeys := [] } (fun _ => none)
        { ciphertext := [], iv := [], authTag := [] } 1
      = .error .notInitialized := rfl

/-- C5 amended: once the provider is initialized, the facade-level decrypt
never propagates an error: it always returns a string, and whenever the
underlying fetch/derive/decrypt pipeline fails the string is the fixed
decryption-failed placeholder. -/
theorem facade_decrypt_never_throws_when_ready (pst : ProviderState) (st : ServiceState)
    (dir : Nat → Option Nat) (env : Envelope) (sid : Nat)
    (hinit : pst.isInitialized = true) :
    ∃ r st1, CryptoProvider.decryptMessage pst st dir env sid = .ok (r, st1) ∧
      (r = placeholderText ∨
        ∃ pk k st2, CryptoProvider.getUserPublicKey dir sid = .ok pk ∧
          CryptoService.deriveSharedKey st pk sid = .ok (k, st2) ∧
          CryptoService.decryptMessage env k = .ok r) := by
  cases hg : CryptoProvider.getUserPublicKey dir sid with
  | error e =>
      refine ⟨placeholderText, st, ?_, Or.inl rfl⟩
      unfold CryptoProvider.decryptMessage
      rw [hinit]
      simp [hg]
  | ok pk =>
      cases hd : CryptoService.deriveSharedKey st pk sid with
      | error e =>
          refine ⟨placeholderText, st, ?_, Or.inl rfl⟩
          unfold CryptoProvider.decryptMessage
          rw [hinit]
          simp [hg, hd]
      | ok ks =>
          obtain ⟨k, st2⟩ := ks
          cases hm : CryptoService.decryptMessage env k with
          | error e =>
              refine ⟨placeholderText, st2, ?_, Or.inl rfl⟩
              unfold CryptoProvider.decryptMessage
              rw [hinit]
              simp [hg, hd, hm]
          | ok q =>
              refine ⟨q, st2, ?_, Or.inr ⟨pk, k, st2, rfl, hd, hm⟩⟩
              unfold CryptoProvider.decryptMessage
              rw [hinit]
              simp [hg, hd, hm]

/-- C5 witness: an initialized provider facing a peer with no published key
returns the placeholder rather than an error. -/
theorem facade_decrypt_never_throws_when_ready_witness :
    ({ isInitialized := true } : ProviderState).isInitialized = true ∧
    (∃ r st1, CryptoProvider.decryptMessage { isInitialized := true }
        { keyPair := none, sharedKeys := [] } (fun _ => none)
        { ciphertext := [], iv := [], authTag := [] } 3 = .ok (r, st1) ∧
      (r = placeholderText ∨
        ∃ pk k st2, CryptoProvider.getUserPublicKey (fun _ => none) 3 = .ok pk ∧
          CryptoService.deriveSharedKey { keyPair := none, sharedKeys := [] } pk 3
            = .ok (k, st2) ∧
          CryptoService.decryptMessage { ciphertext := [], iv := [], authTag := [] } k
            = .ok r)) :=
  ⟨rfl, facade_decrypt_never_throws_when_ready { isInitialized := true }
    { keyPair := none, sharedKeys := [] } (fun _ => none)
    { ciphertext := [], iv := [], authTag := [] } 3 rfl⟩

/-- C6 counterexample: two concurrent encrypt-for-peer calls for the same
uncached peer, under the interleaving in which both cache checks run
before either derivation completes — a schedule the source permits, since
it keeps no in-flight bookkeeping between the check and the store — both
run to completion yet perform two public-key fetches and two derivations,
not exactly one of each. -/
theorem concurrent_misses_not_coalesced_cex :
    (runSched 77 [0, 1, 0, 1, 0, 1] (flightStart 2)).fetchCount ≠ 1 ∧
    (runSched 77 [0, 1, 0, 1, 0, 1] (flightStart 2)).deriveCount ≠ 1 ∧
    (runSched 77 [0, 1, 0, 1, 0, 1] (flightStart 2)).pcs
      = [TaskPC.done, TaskPC.done] := by
  refine ⟨?_, ?_, ?_⟩ <;> decide

/-- C6 amended: concurrent cache misses are not coalesced.  Each call
always performs its own public-key fetch, and under the interleaving where
every cache check precedes any derivation, each call also performs its own
ECDH derivation; the cache ends up holding the (shared, deterministic)
derived key and all callers complete. -/
theorem concurrent_misses_each_derive :
    (runSched 77 [0, 1, 0, 1, 0, 1] (flightStart 2)).fetchCount = 2 ∧
    (runSched 77 [0, 1, 0, 1, 0, 1] (flightStart 2)).deriveCount = 2 ∧
    (runSched 77 [0, 1, 0, 1, 0, 1] (flightStart 2)).cache = some 77 ∧
    (runSched 77 [0, 1, 0, 1, 0, 1] (flightStart 2)).pcs
      = [TaskPC.done, TaskPC.done] := by
  refine ⟨?_, ?_, ?_, ?_⟩ <;> decide

/-- C7: shared-key derivation is deterministic in the pair of local private
key and peer public key: any two calls from states holding the same
private key, whose caches hold nothing stale for the peer — including
after `clearKeys`, which empties the cache — return the same key, and a
message encrypted under either derived key decrypts under the other. -/
theorem derivation_deterministic (a pubB uid rand : Nat) (p : List Nat)
    (s1 s2 : ServiceState) (po1 po2 : Option Nat)
    (hk1 : s1.keyPair = some { privateKey := a, publicKey := po1 })
    (hk2 : s2.keyPair = some { privateKey := a, publicKey := po2 })
    (hc1 : lookupKey s1.sharedKeys uid = none ∨
           lookupKey s1.sharedKeys uid = some (importAesKey (ecdhBits a pubB)))
    (hc2 : lookupKey s2.sharedKeys uid = none ∨
           lookupKey s2.sharedKeys uid = some (importAesKey (ecdhBits a pubB))) :
    ∃ k1 st1 k2 st2,
      CryptoService.deriveSharedKey s1 pubB uid = .ok (k1, st1) ∧
      CryptoService.deriveSharedKey s2 pubB uid = .ok (k2, st2) ∧
      k1 = k2 ∧
      CryptoService.decryptMessage (CryptoService.encryptMessage p k1 rand) k2
        = .ok p ∧
      (CryptoService.clearKeys s1).sharedKeys = [] := by
  obtain ⟨st1, h1⟩ := derive_consistent s1 a pubB uid po1 hk1 hc1
  obtain ⟨st2, h2⟩ := derive_consistent s2 a pubB uid po2 hk2 hc2
  exact ⟨_, st1, _, st2, h1, h2, rfl, decrypt_encrypt p _ rand, rfl⟩

/-- C7 witness: a fresh state and a state holding a cached entry for the
peer (and no public key half) derive the same key, which round-trips. -/
theorem derivation_deterministic_witness :
    (CryptoService.initService 3).keyPair
      = some { privateKey := 3, publicKey := some 3 } ∧
    (∃ k1 st1 k2 st2,
      CryptoService.deriveSharedKey (CryptoService.initService 3) 5 4 = .ok (k1, st1) ∧
      CryptoService.deriveSharedKey
          { keyPair := some { privateKey := 3, publicKey := none },
            sharedKeys := [(4, importAesKey (ecdhBits 3 5))] } 5 4 = .ok (k2, st2) ∧
      k1 = k2 ∧
      CryptoService.decryptMessage (CryptoService.encryptMessage [104] k1 9) k2
        = .ok [104] ∧
      (CryptoService.clearKeys (CryptoService.initService 3)).sharedKeys = []) :=
  ⟨rfl, derivation_deterministic 3 5 4 9 [104] (CryptoService.initService 3)
    { keyPair := some { privateKey := 3, publicKey := none },
      sharedKeys := [(4, importAesKey (ecdhBits 3 5))] }
    (some 3) none rfl rfl (Or.inl rfl) (Or.inr rfl)⟩

/-- C8 counterexample: on an I/O failure `savePrivateKey` completes
normally (storage unchanged) instead of failing with a storage error, and
`loadPrivateKey` returns the absent indicator `false` instead of a storage
error even though a key is persisted for the owner. -/
theorem persist_swallows_io_failure_cex :
    CryptoService.savePrivateKey (CryptoService.initService 7) [] 42 true = .ok ((), []) ∧
    CryptoService.loadPrivateKey (CryptoService.initService 7) [(42, 7)] 42 true
      = .ok (false, CryptoService.initService 7) :=
  ⟨rfl, rfl⟩

/-- C8 amended: `savePrivateKey` swallows persistence I/O failures — it
catches, logs and completes normally with storage unchanged — and
`loadPrivateKey` returns `false` both when no key is persisted for the
owner and on an I/O failure; neither ever surfaces a storage error. -/
theorem persist_reload_failure_semantics (st : ServiceState) (storage : Storage)
    (uid : Nat) (habs : lookupKey storage uid = none) :
    CryptoService.savePrivateKey st storage uid true = .ok ((), storage) ∧
    CryptoService.loadPrivateKey st storage uid false = .ok (false, st) ∧
    CryptoService.loadPrivateKey st storage uid true = .ok (false, st) := by
  refine ⟨rfl, ?_, rfl⟩
  unfold CryptoService.loadPrivateKey
  simp [habs]

/-- C8 amended witness at an empty store. -/
theorem persist_reload_failure_semantics_witness :
    lookupKey [] 5 = none ∧
    (CryptoService.savePrivateKey (CryptoService.initService 1) [] 5 true = .ok ((), []) ∧
     CryptoService.loadPrivateKey (CryptoService.initService 1) [] 5 false
       = .ok (false, CryptoService.initService 1) ∧
     CryptoService.loadPrivateKey (CryptoService.initService 1) [] 5 true
       = .ok (false, CryptoService.initService 1)) :=
  ⟨rfl, persist_reload_failure_semantics (CryptoService.initService 1) [] 5 rfl⟩

/-- C9: after `clearKeys` the identity key pair is gone, the shared-key
cache is empty, and every operation requiring the identity key pair fails
with the not-initialized error; the state never holds more than one
identity key pair. -/
theorem clear_keys_invalidates_everything (s : ServiceState) (pub uid rand : Nat)
    (p : List Nat) (env : Envelope) :
    (CryptoService.clearKeys s).keyPair = none ∧
    (CryptoService.clearKeys s).sharedKeys = [] ∧
    CryptoService.exportPublicKey (CryptoService.clearKeys s) = .error .notInitialized ∧
    CryptoService.deriveSharedKey (CryptoService.clearKeys s) pub uid
      = .error .notInitialized ∧
    CryptoService.encryptForUser (CryptoService.clearKeys s) p pub uid rand
      = .error .notInitialized ∧
    CryptoService.decryptFromUser (CryptoService.clearKeys s) env pub uid
      = .error .notInitialized ∧
    (∀ t : ServiceState, (match t.keyPair with | none => 0 | some _ => 1) ≤ 1) := by
  refine ⟨rfl, rfl, rfl, rfl, rfl, rfl, ?_⟩
  intro t
  cases t.keyPair <;> simp

/-- C10: in the send path, when the crypto engine is not ready or the
encryption attempt fails, the message is still sent — with `isEncrypted`
false and the `text` field carrying the trimmed plaintext. -/
theorem send_falls_back_to_plaintext (msg : List Nat) (aid userId : Nat)
    (cryptoInit hasContactUid : Bool) (encResult : Except CryptoError Envelope)
    (hne : trimBytes msg ≠ [])
    (hfail : cryptoInit = false ∨ ∃ e, encResult = .error e) :
    ChatPage.handleSend msg (some aid) true false (cryptoInit && hasContactUid)
        encResult userId
      = some { conversationId := aid, text := trimBytes msg, encryptedData := none,
               iv := none, authTag := none, isEncrypted := false,
               senderId := userId } := by
  rcases hfail with h | ⟨e, he⟩
  · subst h
    simp [ChatPage.handleSend, hne]
  · subst he
    cases cryptoInit && hasContactUid <;> simp [ChatPage.handleSend, hne]

/-- C10 witness: uninitialized crypto still sends the plaintext payload. -/
theorem send_falls_back_to_plaintext_witness :
    trimBytes [104, 105] ≠ [] ∧
    ChatPage.handleSend [104, 105] (some 2) true false (false && true)
        (Except.ok (Envelope.mk [] [] [])) 9
      = some { conversationId := 2, text := trimBytes [104, 105], encryptedData := none,
               iv := none, authTag := none, isEncrypted := false, senderId := 9 } :=
  ⟨by decide, send_falls_back_to_plaintext [104, 105] 2 9 false true
    (Except.ok (Envelope.mk [] [] [])) (by decide) (Or.inl rfl)⟩

end SecureChat
